import Mathlib

/-!
# TwoPersonsChaincode: a two-party balance ledger

A shallow embedding of `chaincode/chaincode_two_persons.go`.

* The ledger stub (`shim.ChaincodeStubInterface`) is a record holding the
  key-value store, the log of the calls made on it so far, and a failure
  schedule: the `n`-th call on the stub fails with the error `fails n`, if any.
  A failing call leaves the store as it was.
* A Go `([]byte, error)` result is an `Except String (Option String)`:
  `.error msg` for a non-nil error, `.ok none` for `nil, nil` and
  `.ok (some v)` for a returned byte string.
* Go `int` is the 64-bit two's complement integer: an `Int` kept in
  `[-2^63, 2^63)` by `wrapInt`.
* `strconv.Atoi` and `strconv.Itoa` follow the Go standard library
  (`ParseInt(s, 10, 0)` and `FormatInt(int64(i), 10)`).
* `fmt.Printf` only logs, and is left out.
-/

set_option linter.unusedVariables false

namespace Chaincode

/-! ## Go `int` -/

/-- The least value of a Go `int`, `-2^63`. -/
def minInt : Int := -9223372036854775808

/-- The greatest value of a Go `int`, `2^63 - 1`. -/
def maxInt : Int := 9223372036854775807

/-- The values of a Go `int`. -/
def InRange (x : Int) : Prop := minInt ≤ x ∧ x ≤ maxInt

instance (x : Int) : Decidable (InRange x) := by
  unfold InRange; exact inferInstance

/-- Two's complement wrap-around of an integer to 64 bits. -/
def wrapInt (x : Int) : Int :=
  (x + 9223372036854775808) % 18446744073709551616 - 9223372036854775808

/-! ## `strconv` -/

/-- The two errors of `strconv`: `ErrSyntax` and `ErrRange`. -/
inductive NumError where
  | errSyntax
  | errRange
deriving DecidableEq, Repr

/-- The greatest `uint64`, `2^64 - 1`. -/
def maxUint64 : Nat := 18446744073709551615

/-- The loop of `strconv.ParseUint(s, 10, 64)`: `n` is the value read so far.
A byte that is no decimal digit is a syntax error with value 0; a value that
leaves `uint64` is a range error with value `maxUint64`, returned at once. -/
def parseUintLoop : Nat → List Char → Nat × Option NumError
  | n, [] => (n, none)
  | n, c :: cs =>
    if 48 ≤ c.toNat ∧ c.toNat ≤ 57 then
      let d := c.toNat - 48
      if n ≥ maxUint64 / 10 + 1 then (maxUint64, some NumError.errRange)
      else
        let n10 := n * 10
        let n1 := (n10 + d) % 18446744073709551616
        if n1 < n10 ∨ n1 > maxUint64 then (maxUint64, some NumError.errRange)
        else parseUintLoop n1 cs
    else (0, some NumError.errSyntax)

/-- The function `strconv.ParseUint(s, 10, 64)`. -/
def ParseUint (s : List Char) : Nat × Option NumError :=
  match s with
  | [] => (0, some NumError.errSyntax)
  | _ => parseUintLoop 0 s

/-- The function `strconv.ParseInt(s, 10, 0)` with 64-bit `int`. -/
def ParseInt (s : List Char) : Int × Option NumError :=
  match s with
  | [] => (0, some NumError.errSyntax)
  | c :: cs =>
    let neg := decide (c = '-')
    let body := if c = '+' ∨ c = '-' then cs else s
    match ParseUint body with
    | (_, some NumError.errSyntax) => (0, some NumError.errSyntax)
    | (un, _) =>
      let cutoff : Nat := 9223372036854775808
      if ¬ neg ∧ un ≥ cutoff then (((cutoff - 1 : Nat) : Int), some NumError.errRange)
      else if neg ∧ un > cutoff then (-(cutoff : Int), some NumError.errRange)
      else
        let n := wrapInt (un : Int)
        (if neg then wrapInt (-n) else n, none)

/-- The function `strconv.Atoi`: the value and the error (`none` for `nil`). -/
def Atoi (s : String) : Int × Option NumError := ParseInt s.data

/-- The digit loop of `strconv.FormatInt` in base 10, writing the digits of `u`
from the right in front of `acc`; `fuel` bounds the number of digits written. -/
def formatLoop : Nat → Nat → List Char → List Char
  | 0, _, acc => acc
  | fuel + 1, u, acc =>
    if u < 10 then Nat.digitChar u :: acc
    else formatLoop fuel (u / 10) (Nat.digitChar (u % 10) :: acc)

/-- The decimal digits of a `uint64` (at most 20 of them). -/
def formatUint (u : Nat) : List Char := formatLoop 20 u []

/-- The function `strconv.Itoa`: a minus sign for a negative value, then the
decimal digits of the magnitude. -/
def Itoa (i : Int) : String :=
  if i < 0 then String.mk ('-' :: formatUint i.natAbs) else String.mk (formatUint i.natAbs)

/-! ## The ledger stub -/

/-- A call made on the ledger stub. -/
inductive Call where
  | get (key : String)
  | put (key : String) (value : String)
  | del (key : String)
deriving DecidableEq, Repr

/-- The ledger stub: the store, the failure schedule and the log of calls. -/
structure Stub where
  store : String → Option String
  fails : Nat → Option String
  trace : List Call

/-- The result of a chaincode function, Go's `([]byte, error)`. -/
abbrev Result := Except String (Option String)

instance : DecidableEq Result := fun a b =>
  match a, b with
  | Except.error x, Except.error y =>
    if h : x = y then isTrue (by rw [h]) else isFalse (fun h1 => h (Except.error.inj h1))
  | Except.ok x, Except.ok y =>
    if h : x = y then isTrue (by rw [h]) else isFalse (fun h1 => h (Except.ok.inj h1))
  | Except.error _, Except.ok _ => isFalse (fun h => Except.noConfusion h)
  | Except.ok _, Except.error _ => isFalse (fun h => Except.noConfusion h)

/-- The call `stub.GetState(key)`: the stored bytes (`none` for `nil`). -/
def GetState (stub : Stub) (key : String) : Except String (Option String) × Stub :=
  let stub1 : Stub := { stub with trace := stub.trace ++ [Call.get key] }
  match stub.fails stub.trace.length with
  | some e => (Except.error e, stub1)
  | none => (Except.ok (stub.store key), stub1)

/-- The call `stub.PutState(key, value)`: the error, `none` for `nil`. -/
def PutState (stub : Stub) (key : String) (value : String) : Option String × Stub :=
  match stub.fails stub.trace.length with
  | some e => (some e, { stub with trace := stub.trace ++ [Call.put key value] })
  | none =>
    (none, { stub with
      store := fun k => if k = key then some value else stub.store k
      trace := stub.trace ++ [Call.put key value] })

/-- The call `stub.DelState(key)`: the error, `none` for `nil`. -/
def DelState (stub : Stub) (key : String) : Option String × Stub :=
  match stub.fails stub.trace.length with
  | some e => (some e, { stub with trace := stub.trace ++ [Call.del key] })
  | none =>
    (none, { stub with
      store := fun k => if k = key then none else stub.store k
      trace := stub.trace ++ [Call.del key] })

/-! ## The chaincode -/

/-- The method `Init`. Line 33 assigns the value parsed from `args[3]` to
`Andyval`, an identifier the file declares nowhere, and not to the `AndyVal` of
line 19 that line 45 writes for `Andy`. No line of the source assigns `AndyVal`:
it is embedded with the zero value of its declaration. -/
def Init (stub : Stub) (function : String) (args : List String) : Result × Stub :=
  if args.length ≠ 4 then
    (Except.error "Incorrect number of arguments. Expecting 4", stub)
  else
    let John := args.getD 0 ""
    let JohnVal := (Atoi (args.getD 1 "")).1
    let err := (Atoi (args.getD 1 "")).2
    if err ≠ none then
      (Except.error "Expecting integer value for asset holding", stub)
    else
      let Andy := args.getD 2 ""
      let AndyVal : Int := 0
      let err := (Atoi (args.getD 3 "")).2
      if err ≠ none then
        (Except.error "Expecting integer value for asset holding", stub)
      else
        match PutState stub John (Itoa JohnVal) with
        | (some e, stub1) => (Except.error e, stub1)
        | (none, stub1) =>
          match PutState stub1 Andy (Itoa AndyVal) with
          | (some e, stub2) => (Except.error e, stub2)
          | (none, stub2) => (Except.ok none, stub2)

/-- The method `invoke`: the payment of `X` units from `John` to `Andy`. The
errors of the three `strconv.Atoi` calls are not looked at. -/
def invoke (stub : Stub) (args : List String) : Result × Stub :=
  if args.length ≠ 3 then
    (Except.error "Incorrect number of arguments. Expecting 3", stub)
  else
    let John := args.getD 0 ""
    let Andy := args.getD 1 ""
    match GetState stub John with
    | (Except.error _, stub1) => (Except.error "Failed to get state", stub1)
    | (Except.ok none, stub1) => (Except.error "Entity not found", stub1)
    | (Except.ok (some JohnValbytes), stub1) =>
      let JohnVal := (Atoi JohnValbytes).1
      match GetState stub1 Andy with
      | (Except.error _, stub2) => (Except.error "Failed to get state", stub2)
      | (Except.ok none, stub2) => (Except.error "Entity not found", stub2)
      | (Except.ok (some AndyValbytes), stub2) =>
        let AndyVal := (Atoi AndyValbytes).1
        let X := (Atoi (args.getD 2 "")).1
        let JohnVal := wrapInt (JohnVal - X)
        let AndyVal := wrapInt (AndyVal + X)
        match PutState stub2 John (Itoa JohnVal) with
        | (some e, stub3) => (Except.error e, stub3)
        | (none, stub3) =>
          match PutState stub3 Andy (Itoa AndyVal) with
          | (some e, stub4) => (Except.error e, stub4)
          | (none, stub4) => (Except.ok none, stub4)

/-- The method `delete`: removes `args[0]` from the state. -/
def delete (stub : Stub) (args : List String) : Result × Stub :=
  if args.length ≠ 1 then
    (Except.error "Incorrect number of arguments. Expecting 3", stub)
  else
    let John := args.getD 0 ""
    match DelState stub John with
    | (some _, stub1) => (Except.error "Failed to delete state", stub1)
    | (none, stub1) => (Except.ok none, stub1)

/-- The method `Invoke`: routes to `invoke`, `Init` or `delete` by name. -/
def Invoke (stub : Stub) (function : String) (args : List String) : Result × Stub :=
  if function = "invoke" then invoke stub args
  else if function = "init" then Init stub function args
  else if function = "delete" then delete stub args
  else (Except.error "Received unknown function invocation", stub)

/-- The method `Run`: the same routing as `Invoke`, written out again. -/
def Run (stub : Stub) (function : String) (args : List String) : Result × Stub :=
  if function = "invoke" then invoke stub args
  else if function = "init" then Init stub function args
  else if function = "delete" then delete stub args
  else (Except.error "Received unknown function invocation", stub)

/-- The text `jsonResp` that `Query` builds from the name and the stored bytes
before it returns. -/
def jsonResp (John JohnValbytes : String) : String :=
  "\x7b\"Name\":\"" ++ John ++ "\",\"Amount\":\"" ++ JohnValbytes ++ "\"\x7d"

/-- The text `jsonResp` of the two error returns of `Query` after its read, around
a message. -/
def errorResp (message : String) : String :=
  "\x7b\"Error\":\"" ++ message ++ "\"\x7d"

/-- The method `Query`: the bytes stored for `args[0]`. -/
def Query (stub : Stub) (function : String) (args : List String) : Result × Stub :=
  if function ≠ "query" then
    (Except.error "Invalid query function name. Expecting \"query\"", stub)
  else if args.length ≠ 1 then
    (Except.error "Incorrect number of arguments. Expecting name of the person to query", stub)
  else
    let John := args.getD 0 ""
    match GetState stub John with
    | (Except.error _, stub1) =>
      (Except.error ("\x7b\"Error\":\"Failed to get state for " ++ John ++ "\"\x7d"), stub1)
    | (Except.ok none, stub1) =>
      (Except.error ("\x7b\"Error\":\"Nil amount for " ++ John ++ "\"\x7d"), stub1)
    | (Except.ok (some JohnValbytes), stub1) => (Except.ok (some JohnValbytes), stub1)

/-- The next `k` calls on the stub do not fail. -/
def NoFailure (stub : Stub) (k : Nat) : Prop :=
  ∀ i, i < k → stub.fails (stub.trace.length + i) = none

instance (stub : Stub) (k : Nat) : Decidable (NoFailure stub k) := by
  unfold NoFailure; exact inferInstance

/-- The store and the log after a `invoke` whose four store calls succeed. -/
def afterInvoke (stub : Stub) (John Andy va vb x : String) : Stub :=
  { store := fun k =>
      if k = Andy then some (Itoa (wrapInt ((Atoi vb).1 + (Atoi x).1)))
      else if k = John then some (Itoa (wrapInt ((Atoi va).1 - (Atoi x).1)))
      else stub.store k
    fails := stub.fails
    trace := stub.trace ++ [Call.get John, Call.get Andy,
      Call.put John (Itoa (wrapInt ((Atoi va).1 - (Atoi x).1))),
      Call.put Andy (Itoa (wrapInt ((Atoi vb).1 + (Atoi x).1)))] }

/-- A sequence of `invoke` calls between `A` and `B`: each step gives the
direction (`true` from `A` to `B`, `false` from `B` to `A`) and the amount
string. The result is the stub after the last call when every call returned
without error, and `none` otherwise. -/
def transfers (A B : String) : Stub → List (Bool × String) → Option Stub
  | stub, [] => some stub
  | stub, step :: rest =>
    match invoke stub (if step.1 then [A, B, step.2] else [B, A, step.2]) with
    | (Except.ok _, stub1) => transfers A B stub1 rest
    | (Except.error _, _) => none

/-- The balances of `A` and `B` after each step of a sequence of transfers,
computed in unbounded integers from the balances `a` and `b`. -/
def exactBalances : Int → Int → List (Bool × String) → List (Int × Int)
  | _, _, [] => []
  | a, b, step :: rest =>
    let X := (Atoi step.2).1
    let a1 := if step.1 then a - X else a + X
    let b1 := if step.1 then b + X else b - X
    (a1, b1) :: exactBalances a1 b1 rest

/-- No step of the sequence of transfers leaves the range of a Go `int`. -/
def NoOverflow (a b : Int) (steps : List (Bool × String)) : Prop :=
  ∀ p ∈ exactBalances a b steps, InRange p.1 ∧ InRange p.2

/-- The string is the canonical decimal encoding of a Go `int`: it parses
without error and the value formats back to it. -/
def Canonical (v : String) : Prop := (Atoi v).2 = none ∧ Itoa (Atoi v).1 = v

/-- Every value in the store parses as an integer without error. -/
def ValidStore (stub : Stub) : Prop :=
  ∀ k v, stub.store k = some v → (Atoi v).2 = none

/-- A stub with an empty store, no failing call and no call made. -/
def emptyStub : Stub := { store := fun _ => none, fails := fun _ => none, trace := [] }

/-- A stub whose store holds 100 for `A` and 50 for `B`, with no failing call. -/
def twoStub : Stub :=
  { store := fun k => if k = "A" then some "100" else if k = "B" then some "50" else none
    fails := fun _ => none
    trace := [] }

/-- The stub `twoStub` with its `n`-th call failing. -/
def twoStubFailing (n : Nat) : Stub :=
  { store := twoStub.store
    fails := fun i => if i = n then some "ledger failure" else none
    trace := [] }

/-! ## Facts about `strconv` -/

theorem digitChar_toNat (d : Nat) (h : d < 10) : (Nat.digitChar d).toNat = 48 + d := by
  interval_cases d <;> rfl

theorem parseUintLoop_append (xs ys : List Char) :
    ∀ n m : Nat, parseUintLoop n xs = (m, none) →
      parseUintLoop n (xs ++ ys) = parseUintLoop m ys := by
  induction xs with
  | nil =>
    intro n m h
    simp only [parseUintLoop, Prod.mk.injEq, and_true] at h
    simp [h]
  | cons c cs ih =>
    intro n m h
    simp only [parseUintLoop, List.cons_append] at h ⊢
    split_ifs at h ⊢ with h1 h2 h3
    · simp at h
    · simp at h
    · exact ih _ _ h
    · simp at h

theorem parseUintLoop_digit (n d : Nat) (hd : d < 10) (h : n * 10 + d ≤ maxUint64) :
    parseUintLoop n [Nat.digitChar d] = (n * 10 + d, none) := by
  have hc := digitChar_toNat d hd
  simp only [parseUintLoop, hc, maxUint64] at h ⊢
  have e : 48 + d - 48 = d := by omega
  rw [e]
  split_ifs with h1 h2 h3
  · omega
  · omega
  · simp only [Prod.mk.injEq, and_true]; omega
  · omega

theorem formatLoop_acc (fuel : Nat) :
    ∀ (u : Nat) (acc : List Char), formatLoop fuel u acc = formatLoop fuel u [] ++ acc := by
  induction fuel with
  | zero => intro u acc; simp [formatLoop]
  | succ f ih =>
    intro u acc
    simp only [formatLoop]
    split_ifs with h
    · simp
    · rw [ih (u / 10) (Nat.digitChar (u % 10) :: acc), ih (u / 10) [Nat.digitChar (u % 10)]]
      simp

theorem parse_formatLoop (fuel : Nat) :
    ∀ u : Nat, u < 10 ^ fuel → u ≤ maxUint64 →
      parseUintLoop 0 (formatLoop fuel u []) = (u, none) := by
  induction fuel with
  | zero =>
    intro u h _
    have h0 : u = 0 := by simpa using h
    simp [formatLoop, parseUintLoop, h0]
  | succ f ih =>
    intro u h hmax
    simp only [formatLoop]
    split_ifs with h10
    · have := parseUintLoop_digit 0 u h10 (by simpa using hmax)
      simpa using this
    · rw [formatLoop_acc]
      have hdiv : u / 10 < 10 ^ f := by
        apply Nat.div_lt_of_lt_mul
        rw [pow_succ] at h
        omega
      have hle : u / 10 ≤ maxUint64 := le_trans (Nat.div_le_self u 10) hmax
      rw [parseUintLoop_append _ _ 0 (u / 10) (ih (u / 10) hdiv hle)]
      have hd : u % 10 < 10 := Nat.mod_lt u (by decide)
      have hu : u / 10 * 10 + u % 10 = u := by omega
      have := parseUintLoop_digit (u / 10) (u % 10) hd (by rw [hu]; exact hmax)
      rw [this, hu]

theorem formatLoop_head (fuel : Nat) :
    ∀ (u : Nat) (acc : List Char),
      (0 < fuel ∨ ∃ d r, d < 10 ∧ acc = Nat.digitChar d :: r) →
      ∃ d r, d < 10 ∧ formatLoop fuel u acc = Nat.digitChar d :: r := by
  induction fuel with
  | zero =>
    intro u acc h
    rcases h with h | h
    · omega
    · simpa [formatLoop] using h
  | succ f ih =>
    intro u acc _
    simp only [formatLoop]
    split_ifs with h10
    · exact ⟨u, acc, h10, rfl⟩
    · exact ih _ _ (Or.inr ⟨u % 10, acc, Nat.mod_lt u (by decide), rfl⟩)

theorem formatUint_head (u : Nat) :
    ∃ d r, d < 10 ∧ formatUint u = Nat.digitChar d :: r :=
  formatLoop_head 20 u [] (Or.inl (by decide))

theorem parseUint_formatUint (u : Nat) (h : u ≤ maxUint64) :
    ParseUint (formatUint u) = (u, none) := by
  obtain ⟨d, r, _, hr⟩ := formatUint_head u
  have hp : parseUintLoop 0 (formatUint u) = (u, none) :=
    parse_formatLoop 20 u (lt_of_le_of_lt h (by decide)) h
  rw [hr] at hp ⊢
  simpa [ParseUint] using hp

theorem digitChar_ne_sign (d : Nat) (h : d < 10) :
    Nat.digitChar d ≠ '+' ∧ Nat.digitChar d ≠ '-' := by
  interval_cases d <;> decide

theorem parseInt_nonneg (n : Nat) (h : n < 9223372036854775808) :
    ParseInt (formatUint n) = ((n : Int), none) := by
  obtain ⟨d, r, hd, hr⟩ := formatUint_head n
  obtain ⟨hplus, hminus⟩ := digitChar_ne_sign d hd
  have hp := parseUint_formatUint n (by simp only [maxUint64]; omega)
  rw [hr] at hp ⊢
  simp only [ParseInt, hplus, hminus, or_self, if_false, hp, decide_False]
  have h1 : ¬ n ≥ 9223372036854775808 := by omega
  simp only [h1, and_false, if_false, Bool.false_eq_true, false_and, wrapInt, Prod.mk.injEq,
    and_true]
  omega

theorem parseInt_neg (n : Nat) (h : n ≤ 9223372036854775808) :
    ParseInt ('-' :: formatUint n) = (-(n : Int), none) := by
  have hp := parseUint_formatUint n (by simp only [maxUint64]; omega)
  have h1 : ¬ n > 9223372036854775808 := by omega
  simp only [ParseInt, hp, decide_True, or_true, if_true, not_true_eq_false, false_and,
    if_false, h1, and_false, wrapInt, Prod.mk.injEq, and_true]
  omega

/-- Parsing the decimal encoding of a Go `int` gives the value back, with no error. -/
theorem Atoi_Itoa (i : Int) (h : InRange i) : Atoi (Itoa i) = (i, none) := by
  obtain ⟨hlo, hhi⟩ := h
  simp only [minInt, maxInt] at hlo hhi
  by_cases hneg : i < 0
  · have e : -(i.natAbs : Int) = i := by omega
    simp only [Atoi, Itoa, hneg, if_true]
    rw [parseInt_neg i.natAbs (by omega), e]
  · have e : (i.natAbs : Int) = i := by omega
    simp only [Atoi, Itoa, hneg, if_false]
    rw [parseInt_nonneg i.natAbs (by omega), e]

theorem wrapInt_inRange (x : Int) : InRange (wrapInt x) := by
  simp only [InRange, wrapInt, minInt, maxInt]
  omega

theorem wrapInt_of_inRange (x : Int) (h : InRange x) : wrapInt x = x := by
  simp only [InRange, wrapInt, minInt, maxInt] at h ⊢
  omega

/-- The value `strconv.Atoi` returns is a Go `int`, also with an error. -/
theorem Atoi_inRange (s : String) : InRange (Atoi s).1 := by
  simp only [Atoi, ParseInt]
  split
  · simp [InRange, minInt, maxInt]
  · split
    · simp [InRange, minInt, maxInt]
    · split_ifs
      · simp [InRange, minInt, maxInt]
      · simp [InRange, minInt, maxInt]
      · exact wrapInt_inRange _
      · exact wrapInt_inRange _

/-! ## Facts about the chaincode -/

theorem invoke_ok (stub : Stub) (John Andy x va vb : String)
    (hf : NoFailure stub 4) (ha : stub.store John = some va)
    (hb : stub.store Andy = some vb) :
    invoke stub [John, Andy, x] = (Except.ok none, afterInvoke stub John Andy va vb x) := by
  have h0 := hf 0 (by decide)
  have h1 := hf 1 (by decide)
  have h2 := hf 2 (by decide)
  have h3 := hf 3 (by decide)
  simp only [Nat.add_zero] at h0
  simp [invoke, GetState, PutState, afterInvoke, h0, h1, h2, h3, ha, hb]

theorem invoke_noFailure (stub : Stub) (John Andy x : String) (r : Option String)
    (h : (invoke stub [John, Andy, x]).1 = Except.ok r) : NoFailure stub 4 := by
  simp only [invoke, GetState, PutState, List.length_cons, List.length_nil, List.getD_cons_zero,
    List.getD_cons_succ] at h
  cases h0 : stub.fails stub.trace.length with
  | some e => simp [h0] at h
  | none =>
    simp only [h0] at h
    cases ha : stub.store John with
    | none => simp [ha] at h
    | some va =>
      simp only [ha, List.length_append, List.length_cons, List.length_nil] at h
      cases h1 : stub.fails (stub.trace.length + 1) with
      | some e => simp [h1] at h
      | none =>
        simp only [h1] at h
        cases hb : stub.store Andy with
        | none => simp [hb] at h
        | some vb =>
          simp only [hb, List.length_append, List.length_cons, List.length_nil] at h
          cases h2 : stub.fails (stub.trace.length + 1 + 1) with
          | some e => simp [h2] at h
          | none =>
            simp only [h2, List.length_append, List.length_cons, List.length_nil] at h
            cases h3 : stub.fails (stub.trace.length + 1 + 1 + 1) with
            | some e => simp [h3] at h
            | none =>
              intro i hi
              interval_cases i
              · simpa using h0
              · exact h1
              · exact h2
              · exact h3

theorem conservation_step (bA bB X : Int) :
    wrapInt (wrapInt (bA - X) + wrapInt (bB + X)) = wrapInt (bA + bB) := by
  simp only [wrapInt]
  omega

theorem afterInvoke_store_src (stub : Stub) (John Andy va vb x : String) (h : John ≠ Andy) :
    (afterInvoke stub John Andy va vb x).store John
      = some (Itoa (wrapInt ((Atoi va).1 - (Atoi x).1))) := by
  simp [afterInvoke, h]

theorem afterInvoke_store_dst (stub : Stub) (John Andy va vb x : String) :
    (afterInvoke stub John Andy va vb x).store Andy
      = some (Itoa (wrapInt ((Atoi vb).1 + (Atoi x).1))) := by
  simp [afterInvoke]

theorem transfers_invariant (A B : String) (hAB : A ≠ B) (steps : List (Bool × String)) :
    ∀ (stub final : Stub) (bA bB : Int), InRange bA → InRange bB →
      stub.store A = some (Itoa bA) → stub.store B = some (Itoa bB) →
      transfers A B stub steps = some final →
      ∃ x y : Int, InRange x ∧ InRange y ∧
        final.store A = some (Itoa x) ∧ final.store B = some (Itoa y) ∧
        wrapInt (x + y) = wrapInt (bA + bB) ∧
        (NoOverflow bA bB steps → x + y = bA + bB) := by
  induction steps with
  | nil =>
    intro stub final bA bB hA hB hsA hsB hrun
    simp only [transfers, Option.some.injEq] at hrun
    subst hrun
    exact ⟨bA, bB, hA, hB, hsA, hsB, rfl, fun _ => rfl⟩
  | cons step rest ih =>
    intro stub final bA bB hA hB hsA hsB hrun
    obtain ⟨toB, x⟩ := step
    simp only [transfers] at hrun
    cases toB with
    | true =>
      simp only [if_true] at hrun
      cases hres : invoke stub [A, B, x] with
      | mk r stub1 =>
        rw [hres] at hrun
        cases r with
        | error e => simp at hrun
        | ok v =>
          simp only at hrun
          have hnf := invoke_noFailure stub A B x v (by rw [hres])
          have hok := invoke_ok stub A B x _ _ hnf hsA hsB
          rw [hok] at hres
          have hst : stub1 = afterInvoke stub A B (Itoa bA) (Itoa bB) x := by
            simpa using (congrArg Prod.snd hres).symm
          subst hst
          have h1 := afterInvoke_store_src stub A B (Itoa bA) (Itoa bB) x hAB
          have h2 := afterInvoke_store_dst stub A B (Itoa bA) (Itoa bB) x
          rw [Atoi_Itoa bA hA] at h1
          rw [Atoi_Itoa bB hB] at h2
          obtain ⟨x1, y1, hx1, hy1, hfA, hfB, hsum, hexact⟩ :=
            ih _ final _ _ (wrapInt_inRange _) (wrapInt_inRange _) h1 h2 hrun
          refine ⟨x1, y1, hx1, hy1, hfA, hfB, ?_, ?_⟩
          · rw [hsum]; exact conservation_step bA bB _
          · intro hno
            have hhead := hno (bA - (Atoi x).1, bB + (Atoi x).1) (by simp [exactBalances])
            have hrest : NoOverflow (bA - (Atoi x).1) (bB + (Atoi x).1) rest := by
              intro p hp
              exact hno p (by simp [exactBalances, hp])
            rw [wrapInt_of_inRange _ hhead.1, wrapInt_of_inRange _ hhead.2] at hexact
            have := hexact hrest
            omega
    | false =>
      simp only [Bool.false_eq_true, if_false] at hrun
      cases hres : invoke stub [B, A, x] with
      | mk r stub1 =>
        rw [hres] at hrun
        cases r with
        | error e => simp at hrun
        | ok v =>
          simp only at hrun
          have hnf := invoke_noFailure stub B A x v (by rw [hres])
          have hok := invoke_ok stub B A x _ _ hnf hsB hsA
          rw [hok] at hres
          have hst : stub1 = afterInvoke stub B A (Itoa bB) (Itoa bA) x := by
            simpa using (congrArg Prod.snd hres).symm
          subst hst
          have h1 := afterInvoke_store_src stub B A (Itoa bB) (Itoa bA) x (Ne.symm hAB)
          have h2 := afterInvoke_store_dst stub B A (Itoa bB) (Itoa bA) x
          rw [Atoi_Itoa bB hB] at h1
          rw [Atoi_Itoa bA hA] at h2
          obtain ⟨x1, y1, hx1, hy1, hfA, hfB, hsum, hexact⟩ :=
            ih _ final _ _ (wrapInt_inRange _) (wrapInt_inRange _) h2 h1 hrun
          refine ⟨x1, y1, hx1, hy1, hfA, hfB, ?_, ?_⟩
          · rw [hsum, add_comm, conservation_step bB bA _, add_comm]
          · intro hno
            have hhead := hno (bA + (Atoi x).1, bB - (Atoi x).1) (by simp [exactBalances])
            have hrest : NoOverflow (bA + (Atoi x).1) (bB - (Atoi x).1) rest := by
              intro p hp
              exact hno p (by simp [exactBalances, hp])
            rw [wrapInt_of_inRange _ hhead.1, wrapInt_of_inRange _ hhead.2] at hexact
            have := hexact hrest
            omega

theorem length_four (l : List String) (h : l.length = 4) :
    ∃ a b c d, l = [a, b, c, d] := by
  rcases l with _ | ⟨a, _ | ⟨b, _ | ⟨c, _ | ⟨d, _ | ⟨e, t⟩⟩⟩⟩⟩ <;> simp at h
  exact ⟨a, b, c, d, rfl⟩

theorem Init_of_parsed (stub : Stub) (function : String) (args : List String)
    (hlen : args.length = 4) (h1 : (Atoi (args.getD 1 "")).2 = none)
    (h3 : (Atoi (args.getD 3 "")).2 = none) (hf : NoFailure stub 2) :
    (Init stub function args).1 = Except.ok none := by
  have h0 := hf 0 (by decide)
  have h1f := hf 1 (by decide)
  simp only [Nat.add_zero] at h0
  obtain ⟨a, va, b, vb, rfl⟩ := length_four args hlen
  simp only [List.getD_cons_zero, List.getD_cons_succ] at h1 h3
  simp [Init, PutState, h1, h3, h0, h1f]

theorem Init_bad_count (stub : Stub) (function : String) (args : List String)
    (hlen : args.length ≠ 4) :
    Init stub function args
      = (Except.error "Incorrect number of arguments. Expecting 4", stub) := by
  simp [Init, hlen]

theorem Init_bad_balance (stub : Stub) (function : String) (args : List String)
    (hlen : args.length = 4)
    (h : (Atoi (args.getD 1 "")).2 ≠ none ∨ (Atoi (args.getD 3 "")).2 ≠ none) :
    Init stub function args
      = (Except.error "Expecting integer value for asset holding", stub) := by
  obtain ⟨a, va, b, vb, rfl⟩ := length_four args hlen
  simp only [List.getD_cons_zero, List.getD_cons_succ] at h
  by_cases h1 : (Atoi va).2 = none
  · have h3 : (Atoi vb).2 ≠ none := by
      rcases h with h | h
      · exact absurd h1 h
      · exact h
    simp [Init, h1, h3]
  · simp [Init, h1]

theorem canonical_Itoa (i : Int) (h : InRange i) : Canonical (Itoa i) := by
  simp [Canonical, Atoi_Itoa i h]

theorem length_three (l : List String) (h : l.length = 3) :
    ∃ a b c, l = [a, b, c] := by
  rcases l with _ | ⟨a, _ | ⟨b, _ | ⟨c, _ | ⟨d, t⟩⟩⟩⟩ <;> simp at h
  exact ⟨a, b, c, rfl⟩

/-- What `Init` does to the stub: the calls it adds are writes of canonical
encodings, and a stored value is an old one or a canonical encoding. -/
theorem Init_effect (stub : Stub) (function : String) (args : List String) :
    (∃ calls, (Init stub function args).2.trace = stub.trace ++ calls ∧
      ∀ k v, Call.put k v ∈ calls → Canonical v) ∧
    (∀ k v, (Init stub function args).2.store k = some v →
      stub.store k = some v ∨ Canonical v) := by
  by_cases hlen : args.length = 4
  · obtain ⟨a, va, b, vb, rfl⟩ := length_four args hlen
    have hc1 : Canonical (Itoa (Atoi va).1) := canonical_Itoa _ (Atoi_inRange va)
    have hc0 : Canonical (Itoa 0) := canonical_Itoa 0 (by decide)
    by_cases h1 : (Atoi va).2 = none
    · by_cases h3 : (Atoi vb).2 = none
      · cases h0 : stub.fails stub.trace.length with
        | some e =>
          refine ⟨⟨[Call.put a (Itoa (Atoi va).1)], ?_, ?_⟩, ?_⟩
          · simp [Init, PutState, h1, h3, h0]
          · intro k v hk
            simp only [List.mem_singleton, Call.put.injEq] at hk
            rw [hk.2]; exact hc1
          · intro k v hk
            left
            simpa [Init, PutState, h1, h3, h0] using hk
        | none =>
          cases h1f : stub.fails (stub.trace.length + 1) with
          | some e =>
            refine ⟨⟨[Call.put a (Itoa (Atoi va).1), Call.put b (Itoa 0)], ?_, ?_⟩, ?_⟩
            · simp [Init, PutState, h1, h3, h0, h1f]
            · intro k v hk
              simp only [List.mem_cons, List.mem_singleton, Call.put.injEq, List.not_mem_nil,
                or_false] at hk
              rcases hk with hk | hk
              · rw [hk.2]; exact hc1
              · rw [hk.2]; exact hc0
            · intro k v hk
              simp only [Init, PutState, h1, h3, h0, h1f, List.length_cons, List.length_nil,
                List.getD_cons_zero, List.getD_cons_succ, List.length_append] at hk
              simp only [ne_eq, not_true_eq_false, if_false] at hk
              by_cases hka : k = a
              · right
                simp only [hka, if_true, Option.some.injEq] at hk
                rw [← hk]; exact hc1
              · left
                simpa [hka] using hk
          | none =>
            refine ⟨⟨[Call.put a (Itoa (Atoi va).1), Call.put b (Itoa 0)], ?_, ?_⟩, ?_⟩
            · simp [Init, PutState, h1, h3, h0, h1f]
            · intro k v hk
              simp only [List.mem_cons, List.mem_singleton, Call.put.injEq, List.not_mem_nil,
                or_false] at hk
              rcases hk with hk | hk
              · rw [hk.2]; exact hc1
              · rw [hk.2]; exact hc0
            · intro k v hk
              simp only [Init, PutState, h1, h3, h0, h1f, List.length_cons, List.length_nil,
                List.getD_cons_zero, List.getD_cons_succ, List.length_append] at hk
              simp only [ne_eq, not_true_eq_false, if_false] at hk
              by_cases hkb : k = b
              · right
                simp only [hkb, if_true, Option.some.injEq] at hk
                rw [← hk]; exact hc0
              · by_cases hka : k = a
                · right
                  subst hka
                  simp only [hkb, if_true, if_false, Option.some.injEq] at hk
                  rw [← hk]; exact hc1
                · left
                  simpa [hka, hkb] using hk
      · have e := Init_bad_balance stub function [a, va, b, vb] rfl (Or.inr h3)
        rw [e]
        exact ⟨⟨[], by simp, by simp⟩, fun k v hk => Or.inl hk⟩
    · have e := Init_bad_balance stub function [a, va, b, vb] rfl (Or.inl h1)
      rw [e]
      exact ⟨⟨[], by simp, by simp⟩, fun k v hk => Or.inl hk⟩
  · rw [Init_bad_count stub function args hlen]
    exact ⟨⟨[], by simp, by simp⟩, fun k v hk => Or.inl hk⟩

theorem invoke_bad_count (stub : Stub) (args : List String) (hlen : args.length ≠ 3) :
    invoke stub args = (Except.error "Incorrect number of arguments. Expecting 3", stub) := by
  simp [invoke, hlen]

/-- What `invoke` does to the stub: the writes among the calls it adds are writes
of canonical encodings, and a stored value is an old one or a canonical
encoding. -/
theorem invoke_effect (stub : Stub) (args : List String) :
    (∃ calls, (invoke stub args).2.trace = stub.trace ++ calls ∧
      ∀ k v, Call.put k v ∈ calls → Canonical v) ∧
    (∀ k v, (invoke stub args).2.store k = some v →
      stub.store k = some v ∨ Canonical v) := by
  by_cases hlen : args.length = 3
  · obtain ⟨a, b, x, rfl⟩ := length_three args hlen
    cases h0 : stub.fails stub.trace.length with
    | some e =>
      refine ⟨⟨[Call.get a], ?_, ?_⟩, ?_⟩
      · simp [invoke, GetState, h0]
      · intro k v hk; simp at hk
      · intro k v hk; left; simpa [invoke, GetState, h0] using hk
    | none =>
      cases ha : stub.store a with
      | none =>
        refine ⟨⟨[Call.get a], ?_, ?_⟩, ?_⟩
        · simp [invoke, GetState, h0, ha]
        · intro k v hk; simp at hk
        · intro k v hk; left; simpa [invoke, GetState, h0, ha] using hk
      | some va =>
        cases h1 : stub.fails (stub.trace.length + 1) with
        | some e =>
          refine ⟨⟨[Call.get a, Call.get b], ?_, ?_⟩, ?_⟩
          · simp [invoke, GetState, h0, ha, h1]
          · intro k v hk; simp at hk
          · intro k v hk; left; simpa [invoke, GetState, h0, ha, h1] using hk
        | none =>
          cases hb : stub.store b with
          | none =>
            refine ⟨⟨[Call.get a, Call.get b], ?_, ?_⟩, ?_⟩
            · simp [invoke, GetState, h0, ha, h1, hb]
            · intro k v hk; simp at hk
            · intro k v hk; left; simpa [invoke, GetState, h0, ha, h1, hb] using hk
          | some vb =>
            have hc1 : Canonical (Itoa (wrapInt ((Atoi va).1 - (Atoi x).1))) :=
              canonical_Itoa _ (wrapInt_inRange _)
            have hc2 : Canonical (Itoa (wrapInt ((Atoi vb).1 + (Atoi x).1))) :=
              canonical_Itoa _ (wrapInt_inRange _)
            cases h2 : stub.fails (stub.trace.length + 1 + 1) with
            | some e =>
              refine ⟨⟨[Call.get a, Call.get b,
                Call.put a (Itoa (wrapInt ((Atoi va).1 - (Atoi x).1)))], ?_, ?_⟩, ?_⟩
              · simp [invoke, GetState, PutState, h0, ha, h1, hb, h2]
              · intro k v hk
                simp only [List.mem_cons, List.mem_singleton, Call.put.injEq, List.not_mem_nil,
                  or_false, reduceCtorEq, false_or] at hk
                rw [hk.2]; exact hc1
              · intro k v hk; left
                simpa [invoke, GetState, PutState, h0, ha, h1, hb, h2] using hk
            | none =>
              cases h3 : stub.fails (stub.trace.length + 1 + 1 + 1) with
              | some e =>
                refine ⟨⟨[Call.get a, Call.get b,
                  Call.put a (Itoa (wrapInt ((Atoi va).1 - (Atoi x).1))),
                  Call.put b (Itoa (wrapInt ((Atoi vb).1 + (Atoi x).1)))], ?_, ?_⟩, ?_⟩
                · simp [invoke, GetState, PutState, h0, ha, h1, hb, h2, h3]
                · intro k v hk
                  simp only [List.mem_cons, List.mem_singleton, Call.put.injEq,
                    List.not_mem_nil, or_false, reduceCtorEq, false_or] at hk
                  rcases hk with hk | hk
                  · rw [hk.2]; exact hc1
                  · rw [hk.2]; exact hc2
                · intro k v hk
                  simp only [invoke, GetState, PutState, h0, ha, h1, hb, h2, h3,
                    List.length_cons, List.length_nil, List.getD_cons_zero,
                    List.getD_cons_succ, List.length_append] at hk
                  simp only [ne_eq, not_true_eq_false, if_false] at hk
                  by_cases hka : k = a
                  · right
                    simp only [hka, if_true, Option.some.injEq] at hk
                    rw [← hk]; exact hc1
                  · left
                    simpa [hka] using hk
              | none =>
                have hnf : NoFailure stub 4 := by
                  intro i hi
                  interval_cases i
                  · simpa using h0
                  · exact h1
                  · exact h2
                  · exact h3
                rw [invoke_ok stub a b x va vb hnf ha hb]
                refine ⟨⟨[Call.get a, Call.get b,
                  Call.put a (Itoa (wrapInt ((Atoi va).1 - (Atoi x).1))),
                  Call.put b (Itoa (wrapInt ((Atoi vb).1 + (Atoi x).1)))], rfl, ?_⟩, ?_⟩
                · intro k v hk
                  simp only [List.mem_cons, List.mem_singleton, Call.put.injEq,
                    List.not_mem_nil, or_false, reduceCtorEq, false_or] at hk
                  rcases hk with hk | hk
                  · rw [hk.2]; exact hc1
                  · rw [hk.2]; exact hc2
                · intro k v hk
                  simp only [afterInvoke] at hk
                  by_cases hkb : k = b
                  · right
                    simp only [hkb, if_true, Option.some.injEq] at hk
                    rw [← hk]; exact hc2
                  · by_cases hka : k = a
                    · right
                      subst hka
                      simp only [hkb, if_true, if_false, Option.some.injEq] at hk
                      rw [← hk]; exact hc1
                    · left
                      simpa [hka, hkb] using hk
  · rw [invoke_bad_count stub args hlen]
    exact ⟨⟨[], by simp, by simp⟩, fun k v hk => Or.inl hk⟩

theorem length_one (l : List String) (h : l.length = 1) : ∃ a, l = [a] := by
  rcases l with _ | ⟨a, _ | ⟨b, t⟩⟩ <;> simp at h
  exact ⟨a, rfl⟩

/-- The method `Query` never changes the store. -/
theorem Query_store (stub : Stub) (function : String) (args : List String) :
    (Query stub function args).2.store = stub.store := by
  by_cases hfun : function = "query"
  · by_cases hlen : args.length = 1
    · obtain ⟨a, rfl⟩ := length_one args hlen
      cases h0 : stub.fails stub.trace.length with
      | some e => simp [Query, GetState, hfun, h0]
      | none =>
        cases hs : stub.store a with
        | none => simp [Query, GetState, hfun, h0, hs]
        | some w => simp [Query, GetState, hfun, h0, hs]
    · simp [Query, hfun, hlen]
  · simp [Query, hfun]

/-- A value stored after `delete` was stored before. -/
theorem delete_store (stub : Stub) (args : List String) (k v : String)
    (h : (delete stub args).2.store k = some v) : stub.store k = some v := by
  by_cases hlen : args.length = 1
  · obtain ⟨a, rfl⟩ := length_one args hlen
    cases h0 : stub.fails stub.trace.length with
    | some e => simpa [delete, DelState, h0] using h
    | none =>
      simp only [delete, DelState, h0, List.length_cons, List.length_nil,
        List.getD_cons_zero] at h
      simp only [ne_eq, not_true_eq_false, if_false] at h
      split_ifs at h with hk
      exact h
  · simpa [delete, hlen] using h

/-! ## The claims -/

/-- C1, conservation. From a store in which two distinct accounts `A` and `B`
hold the decimal encodings of the Go integers `bA` and `bB`, after any finite
sequence of `invoke` calls between `A` and `B` that all return without error (in
either direction, with any amount strings), `A` and `B` hold the encodings of
Go integers `x` and `y` with `x + y = bA + bB` in Go `int` arithmetic, and with
`x + y = bA + bB` exactly when no step overflows. Every prefix of a sequence
is a sequence, so this holds after each step. -/
theorem C1_conservation (stub final : Stub) (A B : String) (bA bB : Int)
    (steps : List (Bool × String)) (hAB : A ≠ B) (hA : InRange bA) (hB : InRange bB)
    (hsA : stub.store A = some (Itoa bA)) (hsB : stub.store B = some (Itoa bB))
    (hrun : transfers A B stub steps = some final) :
    ∃ x y : Int, InRange x ∧ InRange y ∧
      final.store A = some (Itoa x) ∧ final.store B = some (Itoa y) ∧
      wrapInt (x + y) = wrapInt (bA + bB) ∧
      (NoOverflow bA bB steps → x + y = bA + bB) :=
  transfers_invariant A B hAB steps stub final bA bB hA hB hsA hsB hrun

/-- Witness of C1: 100 and 50, then 30 from `A` to `B` and -5 from `B` to `A`. -/
theorem C1_conservation_witness :
    ∃ x y : Int, InRange x ∧ InRange y ∧
      (invoke (invoke twoStub ["A", "B", "30"]).2 ["B", "A", "-5"]).2.store "A" = some (Itoa x) ∧
      (invoke (invoke twoStub ["A", "B", "30"]).2 ["B", "A", "-5"]).2.store "B" = some (Itoa y) ∧
      wrapInt (x + y) = wrapInt (100 + 50) ∧
      (NoOverflow 100 50 [(true, "30"), (false, "-5")] → x + y = 100 + 50) :=
  C1_conservation twoStub (invoke (invoke twoStub ["A", "B", "30"]).2 ["B", "A", "-5"]).2
    "A" "B" 100 50 [(true, "30"), (false, "-5")] (by decide) (by decide) (by decide)
    (by decide) (by decide) rfl

/-- C2, transfer correctness. When distinct accounts `source` and `destination`
hold the decimal encodings of the Go integers `s` and `d`, the amount string
parses to `a`, and the store calls do not fail, `invoke` returns without error,
and then `Query` returns the encoding of `s - a` for `source` and of `d + a` for
`destination`, in Go `int` arithmetic: the exact difference and sum when they
are in the range of `int`. -/
theorem C2_transfer_correct (stub : Stub) (source destination amount : String) (s d a : Int)
    (hne : source ≠ destination) (hs : InRange s) (hd : InRange d)
    (hss : stub.store source = some (Itoa s)) (hsd : stub.store destination = some (Itoa d))
    (ha : Atoi amount = (a, none)) (hf : NoFailure stub 6) :
    (invoke stub [source, destination, amount]).1 = Except.ok none ∧
    (Query (invoke stub [source, destination, amount]).2 "query" [source]).1
      = Except.ok (some (Itoa (wrapInt (s - a)))) ∧
    (Query (Query (invoke stub [source, destination, amount]).2 "query" [source]).2
        "query" [destination]).1
      = Except.ok (some (Itoa (wrapInt (d + a)))) ∧
    (InRange (s - a) →
      (Query (invoke stub [source, destination, amount]).2 "query" [source]).1
        = Except.ok (some (Itoa (s - a)))) ∧
    (InRange (d + a) →
      (Query (Query (invoke stub [source, destination, amount]).2 "query" [source]).2
          "query" [destination]).1
        = Except.ok (some (Itoa (d + a)))) := by
  have hf4 : NoFailure stub 4 := fun i hi => hf i (by omega)
  have h4 := hf 4 (by decide)
  have h5 := hf 5 (by decide)
  have hs1 := Atoi_Itoa s hs
  have hd1 := Atoi_Itoa d hd
  rw [invoke_ok stub source destination amount _ _ hf4 hss hsd]
  have q1 : (Query (afterInvoke stub source destination (Itoa s) (Itoa d) amount)
      "query" [source]).1 = Except.ok (some (Itoa (wrapInt (s - a)))) := by
    simp [Query, GetState, afterInvoke, h4, hne, hs1, ha]
  have q2 : (Query (Query (afterInvoke stub source destination (Itoa s) (Itoa d) amount)
      "query" [source]).2 "query" [destination]).1
      = Except.ok (some (Itoa (wrapInt (d + a)))) := by
    simp [Query, GetState, afterInvoke, h4, h5, hne, hd1, ha]
  refine ⟨rfl, q1, q2, ?_, ?_⟩
  · intro hr
    exact q1.trans (by rw [wrapInt_of_inRange _ hr])
  · intro hr
    exact q2.trans (by rw [wrapInt_of_inRange _ hr])

/-- Witness of C2: balances 100 and 50, amount 30, give 70 and 80. -/
theorem C2_transfer_correct_witness :
    (invoke twoStub ["A", "B", "30"]).1 = Except.ok none ∧
    (Query (invoke twoStub ["A", "B", "30"]).2 "query" ["A"]).1 = Except.ok (some "70") ∧
    (Query (Query (invoke twoStub ["A", "B", "30"]).2 "query" ["A"]).2 "query" ["B"]).1
      = Except.ok (some "80") :=
  ⟨(C2_transfer_correct twoStub "A" "B" "30" 100 50 30 (by decide) (by decide) (by decide)
      (by decide) (by decide) (by decide) (fun _ _ => rfl)).1,
   (C2_transfer_correct twoStub "A" "B" "30" 100 50 30 (by decide) (by decide) (by decide)
      (by decide) (by decide) (by decide) (fun _ _ => rfl)).2.2.2.1 (by decide),
   (C2_transfer_correct twoStub "A" "B" "30" 100 50 30 (by decide) (by decide) (by decide)
      (by decide) (by decide) (by decide) (fun _ _ => rfl)).2.2.2.2 (by decide)⟩

/-- C4, missing account. When the reads do not fail and the store holds no value
for `source` or for `destination`, `invoke` on the three arguments fails with
`Entity not found`, leaves the store as it was, and makes no call on the stub
other than reads. -/
theorem C4_missing_account (stub : Stub) (source destination amount : String)
    (hf : NoFailure stub 2)
    (hmiss : stub.store source = none ∨ stub.store destination = none) :
    (invoke stub [source, destination, amount]).1 = Except.error "Entity not found" ∧
    (invoke stub [source, destination, amount]).2.store = stub.store ∧
    ∃ calls, (invoke stub [source, destination, amount]).2.trace = stub.trace ++ calls ∧
      ∀ c ∈ calls, ∃ k, c = Call.get k := by
  have h0 := hf 0 (by decide)
  have h1 := hf 1 (by decide)
  simp only [Nat.add_zero] at h0
  cases hs : stub.store source with
  | none =>
    refine ⟨?_, ?_, [Call.get source], ?_, ?_⟩
    · simp [invoke, GetState, h0, hs]
    · simp [invoke, GetState, h0, hs]
    · simp [invoke, GetState, h0, hs]
    · intro c hc
      exact ⟨source, by simpa using hc⟩
  | some va =>
    have hd : stub.store destination = none := by
      rcases hmiss with h | h
      · rw [hs] at h; cases h
      · exact h
    refine ⟨?_, ?_, [Call.get source, Call.get destination], ?_, ?_⟩
    · simp [invoke, GetState, h0, h1, hs, hd]
    · simp [invoke, GetState, h0, h1, hs, hd]
    · simp [invoke, GetState, h0, h1, hs, hd]
    · intro c hc
      simp only [List.mem_cons, List.mem_singleton, List.not_mem_nil, or_false] at hc
      rcases hc with h | h
      · exact ⟨source, h⟩
      · exact ⟨destination, h⟩

/-- Witness of C4: `invoke` on `X`, `Y`, `10` with an empty store. -/
theorem C4_missing_account_witness :
    (invoke emptyStub ["X", "Y", "10"]).1 = Except.error "Entity not found" ∧
    (invoke emptyStub ["X", "Y", "10"]).2.store = emptyStub.store ∧
    ∃ calls, (invoke emptyStub ["X", "Y", "10"]).2.trace = emptyStub.trace ++ calls ∧
      ∀ c ∈ calls, ∃ k, c = Call.get k :=
  C4_missing_account emptyStub "X" "Y" "10" (fun _ _ => rfl) (Or.inl rfl)

/-- C5, invalid amount, at a store holding 100 for `A` and 50 for `B` with no
failing call. The amount `abc` does not parse, and `invoke` returns without
error. The amount `9223372036854775808` is out of the range of `int`, and
`invoke` returns without error and changes both balances. -/
theorem C5_invalid_amount_accepted :
    (Atoi "abc").2 = some NumError.errSyntax ∧
    (invoke twoStub ["A", "B", "abc"]).1 = Except.ok none ∧
    (Atoi "9223372036854775808").2 = some NumError.errRange ∧
    (invoke twoStub ["A", "B", "9223372036854775808"]).1 = Except.ok none ∧
    (invoke twoStub ["A", "B", "9223372036854775808"]).2.store "A"
      = some "-9223372036854775707" ∧
    (invoke twoStub ["A", "B", "9223372036854775808"]).2.store "B"
      = some "-9223372036854775759" := by
  decide

/-- C6, validation in `Init`. When the store writes do not fail, `Init` returns an
error exactly when the number of arguments is not 4, or it is 4 and `args[1]` or
`args[3]` does not parse as an integer. In the first case the error is the one
of the argument count, in the second the one of the integer value, and in both
the stub is returned as it was: no call is made on it and the store is
unchanged. -/
theorem C6_init_validation (stub : Stub) (function : String) (args : List String)
    (hf : NoFailure stub 2) :
    ((∃ e, (Init stub function args).1 = Except.error e) ↔
      (args.length ≠ 4 ∨ (args.length = 4 ∧
        ((Atoi (args.getD 1 "")).2 ≠ none ∨ (Atoi (args.getD 3 "")).2 ≠ none)))) ∧
    (args.length ≠ 4 → Init stub function args
      = (Except.error "Incorrect number of arguments. Expecting 4", stub)) ∧
    (args.length = 4 →
      ((Atoi (args.getD 1 "")).2 ≠ none ∨ (Atoi (args.getD 3 "")).2 ≠ none) →
      Init stub function args
        = (Except.error "Expecting integer value for asset holding", stub)) := by
  refine ⟨⟨?_, ?_⟩, Init_bad_count stub function args, Init_bad_balance stub function args⟩
  · rintro ⟨e, he⟩
    by_cases hlen : args.length = 4
    · right
      refine ⟨hlen, ?_⟩
      by_contra hcon
      push_neg at hcon
      rw [Init_of_parsed stub function args hlen hcon.1 hcon.2 hf] at he
      cases he
    · exact Or.inl hlen
  · rintro (hlen | ⟨hlen, hbad⟩)
    · exact ⟨_, by rw [Init_bad_count stub function args hlen]⟩
    · exact ⟨_, by rw [Init_bad_balance stub function args hlen hbad]⟩

/-- Witness of C6: `Init` on `A`, `100`, `B` and on `A`, `abc`, `B`, `50`. -/
theorem C6_init_validation_witness :
    Init emptyStub "init" ["A", "100", "B"]
      = (Except.error "Incorrect number of arguments. Expecting 4", emptyStub) ∧
    Init emptyStub "init" ["A", "abc", "B", "50"]
      = (Except.error "Expecting integer value for asset holding", emptyStub) :=
  ⟨(C6_init_validation emptyStub "init" ["A", "100", "B"] (fun _ _ => rfl)).2.1 (by decide),
   (C6_init_validation emptyStub "init" ["A", "abc", "B", "50"] (fun _ _ => rfl)).2.2
      (by decide) (Or.inl (by decide))⟩

/-- C7, idempotent delete. For any store and any account `A`, present or not,
when the two deletes do not fail: `delete` of `A` returns without error, a second
`delete` of `A` returns without error and leaves the store equal to the store
after the first, and `Query` of `A` then fails: with the error of a nil amount
when its read does not fail. -/
theorem C7_idempotent_delete (stub : Stub) (A : String) (hf : NoFailure stub 2) :
    (delete stub [A]).1 = Except.ok none ∧
    (delete (delete stub [A]).2 [A]).1 = Except.ok none ∧
    (delete (delete stub [A]).2 [A]).2.store = (delete stub [A]).2.store ∧
    (∃ e, (Query (delete (delete stub [A]).2 [A]).2 "query" [A]).1 = Except.error e) ∧
    (stub.fails (stub.trace.length + 2) = none →
      (Query (delete (delete stub [A]).2 [A]).2 "query" [A]).1
        = Except.error ("\x7b\"Error\":\"Nil amount for " ++ A ++ "\"\x7d")) := by
  have h0 := hf 0 (by decide)
  have h1 := hf 1 (by decide)
  simp only [Nat.add_zero] at h0
  refine ⟨?_, ?_, ?_, ?_, ?_⟩
  · simp [delete, DelState, h0]
  · simp [delete, DelState, h0, h1]
  · funext k
    by_cases hk : k = A <;> simp [delete, DelState, h0, h1, hk]
  · cases h2 : stub.fails (stub.trace.length + 2) with
    | some e =>
      exact ⟨"\x7b\"Error\":\"Failed to get state for " ++ A ++ "\"\x7d",
        by simp [delete, DelState, Query, GetState, h0, h1, h2]⟩
    | none =>
      exact ⟨"\x7b\"Error\":\"Nil amount for " ++ A ++ "\"\x7d",
        by simp [delete, DelState, Query, GetState, h0, h1, h2]⟩
  · intro h2
    simp [delete, DelState, Query, GetState, h0, h1, h2]

/-- Witness of C7: deleting `A` twice from the store holding `A` and `B`. -/
theorem C7_idempotent_delete_witness :
    (delete twoStub ["A"]).1 = Except.ok none ∧
    (delete (delete twoStub ["A"]).2 ["A"]).1 = Except.ok none ∧
    (delete (delete twoStub ["A"]).2 ["A"]).2.store = (delete twoStub ["A"]).2.store ∧
    (Query (delete (delete twoStub ["A"]).2 ["A"]).2 "query" ["A"]).1
      = Except.error ("\x7b\"Error\":\"Nil amount for " ++ "A" ++ "\"\x7d") :=
  ⟨(C7_idempotent_delete twoStub "A" (fun _ _ => rfl)).1,
   (C7_idempotent_delete twoStub "A" (fun _ _ => rfl)).2.1,
   (C7_idempotent_delete twoStub "A" (fun _ _ => rfl)).2.2.1,
   (C7_idempotent_delete twoStub "A" (fun _ _ => rfl)).2.2.2.2 rfl⟩

/-- C8, the balance encoding. Whatever the arguments and the failing calls, every
value `Init` or `invoke` writes to the store is the canonical decimal encoding of
a Go `int`, which parses back without error. So when every value in the store
parses as an integer before `Init`, `invoke`, `delete` or `Query`, every value in
the store parses as an integer after it. -/
theorem C8_balance_encoding (stub : Stub) (function : String) (args : List String) :
    (∃ calls, (Init stub function args).2.trace = stub.trace ++ calls ∧
      ∀ k v, Call.put k v ∈ calls → Canonical v) ∧
    (∃ calls, (invoke stub args).2.trace = stub.trace ++ calls ∧
      ∀ k v, Call.put k v ∈ calls → Canonical v) ∧
    (ValidStore stub →
      ValidStore (Init stub function args).2 ∧ ValidStore (invoke stub args).2 ∧
      ValidStore (delete stub args).2 ∧ ValidStore (Query stub function args).2) := by
  refine ⟨(Init_effect stub function args).1, (invoke_effect stub args).1, ?_⟩
  intro hv
  refine ⟨?_, ?_, ?_, ?_⟩
  · intro k v hk
    rcases (Init_effect stub function args).2 k v hk with h | h
    · exact hv k v h
    · exact h.1
  · intro k v hk
    rcases (invoke_effect stub args).2 k v hk with h | h
    · exact hv k v h
    · exact h.1
  · intro k v hk
    exact hv k v (delete_store stub args k v hk)
  · intro k v hk
    rw [Query_store] at hk
    exact hv k v hk

/-- Witness of C8: the store holding 100 and 50 stays a store of integer
encodings under the four operations on `A`, `B`, `30`. -/
theorem C8_balance_encoding_witness :
    ValidStore (Init twoStub "init" ["A", "B", "30"]).2 ∧
    ValidStore (invoke twoStub ["A", "B", "30"]).2 ∧
    ValidStore (delete twoStub ["A", "B", "30"]).2 ∧
    ValidStore (Query twoStub "init" ["A", "B", "30"]).2 :=
  (C8_balance_encoding twoStub "init" ["A", "B", "30"]).2.2 (by
    intro k v hk
    simp only [twoStub] at hk
    split_ifs at hk with h1 h2
    · cases hk; decide
    · cases hk; decide)

/-- C9, dispatch. For every stub and argument list, `Invoke` is `invoke` for the
name `invoke`, `Init` for the name `init` and `delete` for the name `delete`; for
any other name it fails with the error of an unknown function and returns the
stub as it was. -/
theorem C9_dispatch (stub : Stub) (args : List String) :
    Invoke stub "invoke" args = invoke stub args ∧
    Invoke stub "init" args = Init stub "init" args ∧
    Invoke stub "delete" args = delete stub args ∧
    ∀ function : String, function ≠ "invoke" → function ≠ "init" → function ≠ "delete" →
      Invoke stub function args
        = (Except.error "Received unknown function invocation", stub) := by
  refine ⟨?_, ?_, ?_, ?_⟩
  · simp [Invoke]
  · have h : ("init" : String) ≠ "invoke" := by decide
    simp [Invoke, h]
  · have h1 : ("delete" : String) ≠ "invoke" := by decide
    have h2 : ("delete" : String) ≠ "init" := by decide
    simp [Invoke, h1, h2]
  · intro function h1 h2 h3
    simp [Invoke, h1, h2, h3]

/-- Witness of C9: the name `frobnicate` with no argument. -/
theorem C9_dispatch_witness :
    Invoke emptyStub "frobnicate" []
      = (Except.error "Received unknown function invocation", emptyStub) :=
  (C9_dispatch emptyStub []).2.2.2 "frobnicate" (by decide) (by decide) (by decide)

/-- C10, `Query` is read-only and returns the stored value. `Query` never changes
the store. With the name `query` and the one argument `account`, when the read
does not fail, it returns exactly the value `v` the store holds for `account`,
and fails with the error of a nil amount when the store holds none. With any
other name it fails and returns the stub as it was, with no call made on it. -/
theorem C10_query (stub : Stub) (function : String) (args : List String)
    (account v : String) :
    (Query stub function args).2.store = stub.store ∧
    (stub.fails stub.trace.length = none → stub.store account = some v →
      (Query stub "query" [account]).1 = Except.ok (some v)) ∧
    (stub.fails stub.trace.length = none → stub.store account = none →
      (Query stub "query" [account]).1
        = Except.error ("\x7b\"Error\":\"Nil amount for " ++ account ++ "\"\x7d")) ∧
    (function ≠ "query" → Query stub function args
      = (Except.error "Invalid query function name. Expecting \"query\"", stub)) := by
  refine ⟨Query_store stub function args, ?_, ?_, ?_⟩
  · intro h0 hs
    simp [Query, GetState, h0, hs]
  · intro h0 hs
    simp [Query, GetState, h0, hs]
  · intro hfun
    simp [Query, hfun]

/-- Witness of C10: on the store holding 100 for `A`, `Query` returns `100` for
`A`, fails for `C`, and fails under the name `balance`. -/
theorem C10_query_witness :
    (Query twoStub "query" ["A"]).1 = Except.ok (some "100") ∧
    (Query twoStub "query" ["C"]).1
      = Except.error ("\x7b\"Error\":\"Nil amount for " ++ "C" ++ "\"\x7d") ∧
    Query twoStub "balance" ["A"]
      = (Except.error "Invalid query function name. Expecting \"query\"", twoStub) :=
  ⟨(C10_query twoStub "query" ["A"] "A" "100").2.1 rfl (by decide),
   (C10_query twoStub "query" ["C"] "C" "").2.2.1 rfl (by decide),
   (C10_query twoStub "balance" ["A"] "A" "").2.2.2 (by decide)⟩

/-- C11, conservation over all transfers, at a transfer from `A` to `A` itself on
the store holding 100 for `A` and 50 for `B`, with no failing call and the
amount 30, which parses: `invoke` returns without error and `A` holds 130 where
it held 100, while `B` still holds 50. -/
theorem C11_self_transfer_creates_value :
    (Atoi "30") = (30, none) ∧
    twoStub.store "A" = some "100" ∧
    (invoke twoStub ["A", "A", "30"]).1 = Except.ok none ∧
    (invoke twoStub ["A", "A", "30"]).2.store "A" = some "130" ∧
    (invoke twoStub ["A", "A", "30"]).2.store "B" = some "50" := by
  decide

/-- C12, partial failure of a transfer. Distinct accounts `source` and
`destination` hold the encodings of the Go integers `s` and `d`, the amount
parses to `a`, and the two reads do not fail. When the write for `source`
succeeds and the write for `destination` fails with `e`, `invoke` returns `e`,
`source` holds the encoding of `s - a` (Go `int` arithmetic, the exact value
when in range) and `destination` still holds the encoding of `d`, so that for
`a ≠ 0` the two balances no longer sum to `s + d`, exactly or in Go `int`
arithmetic. When the write for `source` fails with `e`, `invoke` returns `e` and
the store is unchanged. -/
theorem C12_transfer_partial_failure (stub : Stub) (source destination amount e : String)
    (s d a : Int) (hne : source ≠ destination) (hs : InRange s) (hd : InRange d)
    (hss : stub.store source = some (Itoa s)) (hsd : stub.store destination = some (Itoa d))
    (ha : Atoi amount = (a, none)) (hreads : NoFailure stub 2) :
    (stub.fails (stub.trace.length + 2) = none →
      stub.fails (stub.trace.length + 3) = some e →
      (invoke stub [source, destination, amount]).1 = Except.error e ∧
      (invoke stub [source, destination, amount]).2.store source
        = some (Itoa (wrapInt (s - a))) ∧
      (InRange (s - a) → (invoke stub [source, destination, amount]).2.store source
        = some (Itoa (s - a))) ∧
      (invoke stub [source, destination, amount]).2.store destination = some (Itoa d) ∧
      (a ≠ 0 → wrapInt (s - a) + d ≠ s + d ∧
        wrapInt (wrapInt (s - a) + d) ≠ wrapInt (s + d))) ∧
    (stub.fails (stub.trace.length + 2) = some e →
      (invoke stub [source, destination, amount]).1 = Except.error e ∧
      (invoke stub [source, destination, amount]).2.store = stub.store) := by
  have h0 := hreads 0 (by decide)
  have h1 := hreads 1 (by decide)
  simp only [Nat.add_zero] at h0
  have hs1 := Atoi_Itoa s hs
  have hra := Atoi_inRange amount
  rw [ha] at hra
  refine ⟨?_, ?_⟩
  · intro h2 h3
    have hsrc : (invoke stub [source, destination, amount]).2.store source
        = some (Itoa (wrapInt (s - a))) := by
      simp [invoke, GetState, PutState, h0, h1, h2, h3, hss, hsd, hs1, ha]
    refine ⟨?_, hsrc, ?_, ?_, ?_⟩
    · simp [invoke, GetState, PutState, h0, h1, h2, h3, hss, hsd]
    · intro hr
      rw [hsrc, wrapInt_of_inRange _ hr]
    · simp [invoke, GetState, PutState, h0, h1, h2, h3, hss, hsd, Ne.symm hne]
    · intro hne0
      simp only [InRange, minInt, maxInt] at hs hd hra
      simp only [wrapInt]
      constructor <;> omega
  · intro h2
    constructor
    · simp [invoke, GetState, PutState, h0, h1, h2, hss, hsd]
    · simp [invoke, GetState, PutState, h0, h1, h2, hss, hsd]

/-- Witness of C12: 100 and 50, amount 30, with the second write failing and
with the first write failing. -/
theorem C12_transfer_partial_failure_witness :
    ((invoke (twoStubFailing 3) ["A", "B", "30"]).1 = Except.error "ledger failure" ∧
      (invoke (twoStubFailing 3) ["A", "B", "30"]).2.store "A" = some "70" ∧
      (invoke (twoStubFailing 3) ["A", "B", "30"]).2.store "B" = some "50") ∧
    ((invoke (twoStubFailing 2) ["A", "B", "30"]).1 = Except.error "ledger failure" ∧
      (invoke (twoStubFailing 2) ["A", "B", "30"]).2.store = (twoStubFailing 2).store) :=
  ⟨⟨((C12_transfer_partial_failure (twoStubFailing 3) "A" "B" "30" "ledger failure" 100 50 30
        (by decide) (by decide) (by decide) (by decide) (by decide) (by decide)
        (by decide)).1 (by decide) (by decide)).1,
    ((C12_transfer_partial_failure (twoStubFailing 3) "A" "B" "30" "ledger failure" 100 50 30
        (by decide) (by decide) (by decide) (by decide) (by decide) (by decide)
        (by decide)).1 (by decide) (by decide)).2.2.1 (by decide),
    ((C12_transfer_partial_failure (twoStubFailing 3) "A" "B" "30" "ledger failure" 100 50 30
        (by decide) (by decide) (by decide) (by decide) (by decide) (by decide)
        (by decide)).1 (by decide) (by decide)).2.2.2.1⟩,
   (C12_transfer_partial_failure (twoStubFailing 2) "A" "B" "30" "ledger failure" 100 50 30
      (by decide) (by decide) (by decide) (by decide) (by decide) (by decide)
      (by decide)).2 (by decide)⟩

/-- C13, no overdraft or sign check. Distinct accounts `source` and `destination`
hold the encodings of the Go integers `s` and `d` and the amount parses to `a`,
of either sign and of any size. When the four store calls do not fail, `invoke`
returns without error and `source` holds the encoding of `s - a` (Go `int`
arithmetic, the exact value when in range), negative or not. -/
theorem C13_no_overdraft_check (stub : Stub) (source destination amount : String)
    (s d a : Int) (hne : source ≠ destination) (hs : InRange s) (hd : InRange d)
    (hss : stub.store source = some (Itoa s)) (hsd : stub.store destination = some (Itoa d))
    (ha : Atoi amount = (a, none)) (hf : NoFailure stub 4) :
    (invoke stub [source, destination, amount]).1 = Except.ok none ∧
    (invoke stub [source, destination, amount]).2.store source
      = some (Itoa (wrapInt (s - a))) ∧
    (InRange (s - a) → (invoke stub [source, destination, amount]).2.store source
      = some (Itoa (s - a))) := by
  have hs1 := Atoi_Itoa s hs
  have hsrc : (invoke stub [source, destination, amount]).2.store source
      = some (Itoa (wrapInt (s - a))) := by
    rw [invoke_ok stub source destination amount _ _ hf hss hsd]
    simp [afterInvoke, hne, hs1, ha]
  refine ⟨?_, hsrc, ?_⟩
  · rw [invoke_ok stub source destination amount _ _ hf hss hsd]
  · intro hr
    rw [hsrc, wrapInt_of_inRange _ hr]

/-- Witness of C13: from 100, the amount 130 leaves -30 and the amount -30
leaves 130. -/
theorem C13_no_overdraft_check_witness :
    ((invoke twoStub ["A", "B", "130"]).1 = Except.ok none ∧
      (invoke twoStub ["A", "B", "130"]).2.store "A" = some "-30") ∧
    ((invoke twoStub ["A", "B", "-30"]).1 = Except.ok none ∧
      (invoke twoStub ["A", "B", "-30"]).2.store "A" = some "130") :=
  ⟨⟨(C13_no_overdraft_check twoStub "A" "B" "130" 100 50 130 (by decide) (by decide)
        (by decide) (by decide) (by decide) (by decide) (fun _ _ => rfl)).1,
    (C13_no_overdraft_check twoStub "A" "B" "130" 100 50 130 (by decide) (by decide)
        (by decide) (by decide) (by decide) (by decide) (fun _ _ => rfl)).2.2 (by decide)⟩,
   ⟨(C13_no_overdraft_check twoStub "A" "B" "-30" 100 50 (-30) (by decide) (by decide)
        (by decide) (by decide) (by decide) (by decide) (fun _ _ => rfl)).1,
    ((C13_no_overdraft_check twoStub "A" "B" "-30" 100 50 (-30) (by decide) (by decide)
        (by decide) (by decide) (by decide) (by decide) (fun _ _ => rfl)).2.2
        (by decide)).trans (by decide)⟩⟩

/-- C14, the argument counts. `invoke` with a number of arguments other than 3,
`delete` with a number other than 1 and `Query` under the name `query` with a
number other than 1 each fail with the error of the number of arguments and
return the stub as it was: no call is made on it. -/
theorem C14_argument_count (stub : Stub) (args : List String) :
    (args.length ≠ 3 → invoke stub args
      = (Except.error "Incorrect number of arguments. Expecting 3", stub)) ∧
    (args.length ≠ 1 → delete stub args
      = (Except.error "Incorrect number of arguments. Expecting 3", stub)) ∧
    (args.length ≠ 1 → Query stub "query" args
      = (Except.error
          "Incorrect number of arguments. Expecting name of the person to query", stub)) := by
  refine ⟨invoke_bad_count stub args, ?_, ?_⟩
  · intro h
    simp [delete, h]
  · intro h
    simp [Query, h]

/-- Witness of C14: two arguments for each of `invoke`, `delete` and `Query`. -/
theorem C14_argument_count_witness :
    invoke twoStub ["A", "B"]
      = (Except.error "Incorrect number of arguments. Expecting 3", twoStub) ∧
    delete twoStub ["A", "B"]
      = (Except.error "Incorrect number of arguments. Expecting 3", twoStub) ∧
    Query twoStub "query" ["A", "B"]
      = (Except.error
          "Incorrect number of arguments. Expecting name of the person to query", twoStub) :=
  ⟨(C14_argument_count twoStub ["A", "B"]).1 (by decide),
   (C14_argument_count twoStub ["A", "B"]).2.1 (by decide),
   (C14_argument_count twoStub ["A", "B"]).2.2 (by decide)⟩

/-- C15 as stated fails: on the store holding 100 for `A`, `Query` of `A` returns
the bytes `100`, not the text built from the name and the amount; and under
the name `balance` its error is a plain message, not a text around a message. -/
theorem C15_query_returns_stored_bytes :
    twoStub.store "A" = some "100" ∧
    (Query twoStub "query" ["A"]).1 = Except.ok (some "100") ∧
    (Query twoStub "query" ["A"]).1 ≠ Except.ok (some (jsonResp "A" "100")) ∧
    ¬ ∃ message, (Query twoStub "balance" ["A"]).1 = Except.error (errorResp message) := by
  refine ⟨by decide, by decide, by decide, ?_⟩
  rintro ⟨m, h⟩
  have h1 : (Query twoStub "balance" ["A"]).1
      = Except.error "Invalid query function name. Expecting \"query\"" := by decide
  rw [h1] at h
  have h2 := congrArg (fun t : String => t.data.head?) (Except.error.inj h)
  simp [errorResp, String.data_append] at h2

/-- C15, amended. Under the name `query` with the one argument `account`: when the
read does not fail and the store holds `v` for `account`, the result of `Query`
is the bytes `v` themselves; when the store holds nothing the error is the text
around the message of a nil amount, and when the read fails it is the text
around the message of a failed read. Under another name, or with another
number of arguments, the error is a plain message. -/
theorem C15_query_result (stub : Stub) (function : String) (args : List String)
    (account v : String) :
    (stub.fails stub.trace.length = none → stub.store account = some v →
      (Query stub "query" [account]).1 = Except.ok (some v)) ∧
    (stub.fails stub.trace.length = none → stub.store account = none →
      (Query stub "query" [account]).1
        = Except.error (errorResp ("Nil amount for " ++ account))) ∧
    (stub.fails stub.trace.length ≠ none →
      (Query stub "query" [account]).1
        = Except.error (errorResp ("Failed to get state for " ++ account))) ∧
    (function ≠ "query" → (Query stub function args).1
      = Except.error "Invalid query function name. Expecting \"query\"") ∧
    (args.length ≠ 1 → (Query stub "query" args).1
      = Except.error
          "Incorrect number of arguments. Expecting name of the person to query") := by
  have e1 : errorResp ("Nil amount for " ++ account)
      = "\x7b\"Error\":\"Nil amount for " ++ account ++ "\"\x7d" := by
    simp only [errorResp, ← String.append_assoc]
    rfl
  have e2 : errorResp ("Failed to get state for " ++ account)
      = "\x7b\"Error\":\"Failed to get state for " ++ account ++ "\"\x7d" := by
    simp only [errorResp, ← String.append_assoc]
    rfl
  refine ⟨?_, ?_, ?_, ?_, ?_⟩
  · intro h0 hs
    simp [Query, GetState, h0, hs]
  · intro h0 hs
    rw [e1]
    simp [Query, GetState, h0, hs]
  · intro h0
    rw [e2]
    cases hf : stub.fails stub.trace.length with
    | none => exact absurd hf h0
    | some e => simp [Query, GetState, hf]
  · intro hfun
    simp [Query, hfun]
  · intro hlen
    simp [Query, hlen]

/-- Witness of C15, amended: `Query` of `A`, of the absent `C`, with a failing
read, under the name `balance`, and with two arguments. -/
theorem C15_query_result_witness :
    (Query twoStub "query" ["A"]).1 = Except.ok (some "100") ∧
    (Query twoStub "query" ["C"]).1
      = Except.error (errorResp ("Nil amount for " ++ "C")) ∧
    (Query (twoStubFailing 0) "query" ["A"]).1
      = Except.error (errorResp ("Failed to get state for " ++ "A")) ∧
    (Query twoStub "balance" ["A"]).1
      = Except.error "Invalid query function name. Expecting \"query\"" ∧
    (Query twoStub "query" ["A", "B"]).1
      = Except.error
          "Incorrect number of arguments. Expecting name of the person to query" :=
  ⟨(C15_query_result twoStub "query" ["A"] "A" "100").1 rfl (by decide),
   (C15_query_result twoStub "query" ["C"] "C" "").2.1 rfl (by decide),
   (C15_query_result (twoStubFailing 0) "query" ["A"] "A" "").2.2.1 (by decide),
   (C15_query_result twoStub "balance" ["A"] "A" "").2.2.2.1 (by decide),
   (C15_query_result twoStub "query" ["A", "B"] "A" "").2.2.2.2 (by decide)⟩

/-- C16, partial failure of `Init`. The four arguments are `A`, `balanceA`, `B`,
`balanceB` with `A ≠ B` and both balances parsing. When the first write fails
with `e`, `Init` returns `e`, the store is unchanged and the only call made is
the write for `A`. When the first write succeeds and the second fails with `e`,
`Init` returns `e`, `A` holds the encoding of its parsed balance and every other
key, `B` among them, is as before. -/
theorem C16_init_partial_failure (stub : Stub) (function A balanceA B balanceB e : String)
    (vA vB : Int) (hne : A ≠ B) (hA : Atoi balanceA = (vA, none))
    (hB : Atoi balanceB = (vB, none)) :
    (stub.fails stub.trace.length = some e →
      (Init stub function [A, balanceA, B, balanceB]).1 = Except.error e ∧
      (Init stub function [A, balanceA, B, balanceB]).2.store = stub.store ∧
      (Init stub function [A, balanceA, B, balanceB]).2.trace
        = stub.trace ++ [Call.put A (Itoa vA)]) ∧
    (stub.fails stub.trace.length = none →
      stub.fails (stub.trace.length + 1) = some e →
      (Init stub function [A, balanceA, B, balanceB]).1 = Except.error e ∧
      (Init stub function [A, balanceA, B, balanceB]).2.store A = some (Itoa vA) ∧
      (Init stub function [A, balanceA, B, balanceB]).2.store B = stub.store B ∧
      ∀ k, k ≠ A → (Init stub function [A, balanceA, B, balanceB]).2.store k
        = stub.store k) := by
  constructor
  · intro h0
    simp [Init, PutState, hA, hB, h0]
  · intro h0 h1
    refine ⟨?_, ?_, ?_, ?_⟩
    · simp [Init, PutState, hA, hB, h0, h1]
    · simp [Init, PutState, hA, hB, h0, h1]
    · simp [Init, PutState, hA, hB, h0, h1, Ne.symm hne]
    · intro k hk
      simp [Init, PutState, hA, hB, h0, h1, hk]

/-- Witness of C16: `Init` on `A`, `7`, `B`, `9` over the store holding 100 and
50, with the first write failing and with the second write failing. -/
theorem C16_init_partial_failure_witness :
    ((Init (twoStubFailing 0) "init" ["A", "7", "B", "9"]).1 = Except.error "ledger failure" ∧
      (Init (twoStubFailing 0) "init" ["A", "7", "B", "9"]).2.store
        = (twoStubFailing 0).store ∧
      (Init (twoStubFailing 0) "init" ["A", "7", "B", "9"]).2.trace
        = (twoStubFailing 0).trace ++ [Call.put "A" (Itoa 7)]) ∧
    ((Init (twoStubFailing 1) "init" ["A", "7", "B", "9"]).1 = Except.error "ledger failure" ∧
      (Init (twoStubFailing 1) "init" ["A", "7", "B", "9"]).2.store "A" = some (Itoa 7) ∧
      (Init (twoStubFailing 1) "init" ["A", "7", "B", "9"]).2.store "B"
        = (twoStubFailing 1).store "B") :=
  ⟨(C16_init_partial_failure (twoStubFailing 0) "init" "A" "7" "B" "9" "ledger failure" 7 9
      (by decide) (by decide) (by decide)).1 (by decide),
   ((C16_init_partial_failure (twoStubFailing 1) "init" "A" "7" "B" "9" "ledger failure" 7 9
      (by decide) (by decide) (by decide)).2 (by decide) (by decide)).1,
   ((C16_init_partial_failure (twoStubFailing 1) "init" "A" "7" "B" "9" "ledger failure" 7 9
      (by decide) (by decide) (by decide)).2 (by decide) (by decide)).2.1,
   ((C16_init_partial_failure (twoStubFailing 1) "init" "A" "7" "B" "9" "ledger failure" 7 9
      (by decide) (by decide) (by decide)).2 (by decide) (by decide)).2.2.1⟩

/-- C17, frame. For every stub, name and argument list, failing calls or not, a
key `k` that is not one of the account names passed (`args[0]` and `args[2]` for
`Init`, `args[0]` and `args[1]` for `invoke`, `args[0]` for `delete`) is stored
after the operation exactly as before; `Query` leaves every key as before. -/
theorem C17_frame (stub : Stub) (function : String) (args : List String) (k : String) :
    (args[0]? ≠ some k → args[2]? ≠ some k →
      (Init stub function args).2.store k = stub.store k) ∧
    (args[0]? ≠ some k → args[1]? ≠ some k →
      (invoke stub args).2.store k = stub.store k) ∧
    (args[0]? ≠ some k → (delete stub args).2.store k = stub.store k) ∧
    (Query stub function args).2.store k = stub.store k := by
  refine ⟨?_, ?_, ?_, ?_⟩
  · intro hk0 hk2
    by_cases hlen : args.length = 4
    · obtain ⟨a, va, b, vb, rfl⟩ := length_four args hlen
      have hka : k ≠ a := fun h => hk0 (by simp [h])
      have hkb : k ≠ b := fun h => hk2 (by simp [h])
      by_cases h1 : (Atoi va).2 = none
      · by_cases h3 : (Atoi vb).2 = none
        · cases h0 : stub.fails stub.trace.length with
          | some e => simp [Init, PutState, h1, h3, h0]
          | none =>
            cases h1f : stub.fails (stub.trace.length + 1) with
            | some e => simp [Init, PutState, h1, h3, h0, h1f, hka]
            | none => simp [Init, PutState, h1, h3, h0, h1f, hka, hkb]
        · rw [Init_bad_balance stub function [a, va, b, vb] rfl (Or.inr h3)]
      · rw [Init_bad_balance stub function [a, va, b, vb] rfl (Or.inl h1)]
    · rw [Init_bad_count stub function args hlen]
  · intro hk0 hk1
    by_cases hlen : args.length = 3
    · obtain ⟨a, b, x, rfl⟩ := length_three args hlen
      have hka : k ≠ a := fun h => hk0 (by simp [h])
      have hkb : k ≠ b := fun h => hk1 (by simp [h])
      cases h0 : stub.fails stub.trace.length with
      | some e => simp [invoke, GetState, h0]
      | none =>
        cases ha : stub.store a with
        | none => simp [invoke, GetState, h0, ha]
        | some va =>
          cases h1 : stub.fails (stub.trace.length + 1) with
          | some e => simp [invoke, GetState, h0, ha, h1]
          | none =>
            cases hb : stub.store b with
            | none => simp [invoke, GetState, h0, ha, h1, hb]
            | some vb =>
              cases h2 : stub.fails (stub.trace.length + 2) with
              | some e => simp [invoke, GetState, PutState, h0, ha, h1, hb, h2]
              | none =>
                cases h3 : stub.fails (stub.trace.length + 3) with
                | some e => simp [invoke, GetState, PutState, h0, ha, h1, hb, h2, h3, hka]
                | none =>
                  simp [invoke, GetState, PutState, h0, ha, h1, hb, h2, h3, hka, hkb]
    · rw [invoke_bad_count stub args hlen]
  · intro hk0
    by_cases hlen : args.length = 1
    · obtain ⟨a, rfl⟩ := length_one args hlen
      have hka : k ≠ a := fun h => hk0 (by simp [h])
      cases h0 : stub.fails stub.trace.length with
      | some e => simp [delete, DelState, h0]
      | none => simp [delete, DelState, h0, hka]
    · simp [delete, hlen]
  · rw [Query_store]

/-- Witness of C17: on the store holding 100 for `A` and 50 for `B`, the key `B`
is as before after `delete` of `A`, and after `Init` on `A` and `C`. -/
theorem C17_frame_witness :
    (delete twoStub ["A"]).2.store "B" = twoStub.store "B" ∧
    (Init twoStub "init" ["A", "1", "C", "2"]).2.store "B" = twoStub.store "B" ∧
    (invoke twoStub ["A", "C", "1"]).2.store "B" = twoStub.store "B" :=
  ⟨(C17_frame twoStub "delete" ["A"] "B").2.2.1 (by decide),
   (C17_frame twoStub "init" ["A", "1", "C", "2"] "B").1 (by decide) (by decide),
   (C17_frame twoStub "invoke" ["A", "C", "1"] "B").2.1 (by decide) (by decide)⟩

/-- C18, a transfer is undone by the reverse transfer. Distinct accounts `A` and
`B` hold the canonical encodings of the Go integers `a` and `b`. For any amount
string `x`, when `invoke` from `A` to `B` returns without error and then `invoke`
from `B` to `A` returns without error, the store is the one before the two
calls, wrap-around included. -/
theorem C18_reverse_transfer (stub mid final : Stub) (A B x : String) (a b : Int)
    (r1 r2 : Option String) (hne : A ≠ B) (ha : InRange a) (hb : InRange b)
    (hsA : stub.store A = some (Itoa a)) (hsB : stub.store B = some (Itoa b))
    (h1 : invoke stub [A, B, x] = (Except.ok r1, mid))
    (h2 : invoke mid [B, A, x] = (Except.ok r2, final)) :
    final.store = stub.store := by
  have hnf1 := invoke_noFailure stub A B x r1 (by rw [h1])
  have hnf2 := invoke_noFailure mid B A x r2 (by rw [h2])
  rw [invoke_ok stub A B x _ _ hnf1 hsA hsB] at h1
  have hmid : mid = afterInvoke stub A B (Itoa a) (Itoa b) x := by
    simpa using (congrArg Prod.snd h1).symm
  have hmA := afterInvoke_store_src stub A B (Itoa a) (Itoa b) x hne
  have hmB := afterInvoke_store_dst stub A B (Itoa a) (Itoa b) x
  rw [← hmid, Atoi_Itoa a ha] at hmA
  rw [← hmid, Atoi_Itoa b hb] at hmB
  rw [invoke_ok mid B A x _ _ hnf2 hmB hmA] at h2
  have hfinal : final = afterInvoke mid B A (Itoa (wrapInt (b + (Atoi x).1)))
      (Itoa (wrapInt (a - (Atoi x).1))) x := by
    simpa using (congrArg Prod.snd h2).symm
  have hwa : wrapInt (wrapInt (a - (Atoi x).1) + (Atoi x).1) = a := by
    simp only [InRange, minInt, maxInt] at ha
    simp only [wrapInt]
    omega
  have hwb : wrapInt (wrapInt (b + (Atoi x).1) - (Atoi x).1) = b := by
    simp only [InRange, minInt, maxInt] at hb
    simp only [wrapInt]
    omega
  funext k
  rw [hfinal]
  simp only [afterInvoke, Atoi_Itoa _ (wrapInt_inRange _), hwa, hwb]
  by_cases hkA : k = A
  · subst hkA
    simp [hsA]
  · by_cases hkB : k = B
    · subst hkB
      simp [hkA, hsB]
    · simp [hkA, hkB, hmid, afterInvoke]

/-- Witness of C18: 30 from `A` to `B` and back, on the store holding 100 and 50. -/
theorem C18_reverse_transfer_witness :
    (invoke (invoke twoStub ["A", "B", "30"]).2 ["B", "A", "30"]).2.store = twoStub.store :=
  C18_reverse_transfer twoStub (invoke twoStub ["A", "B", "30"]).2
    (invoke (invoke twoStub ["A", "B", "30"]).2 ["B", "A", "30"]).2 "A" "B" "30" 100 50
    none none (by decide) (by decide) (by decide) (by decide) (by decide) rfl rfl

/-- C19, `Run` and `Invoke`. For every stub, name and argument list, `Run` returns
the same result and the same stub as `Invoke`. -/
theorem C19_run_eq_invoke (stub : Stub) (function : String) (args : List String) :
    Run stub function args = Invoke stub function args := by
  simp only [Run, Invoke]

end Chaincode
